import Mathlib

/-!
Shallow embedding of the JSX-to-DOM rendering pragma module (just-jsx).

The embedding models the DOM fragment of the source: elements carry a
namespace URI, a tag name, an ordered attribute list, registered event
listeners, assigned DOM properties and an ordered child-node list.
JS strings are Lean strings; JS numbers appearing as children or style
values are integers here (the claims only use integral values); JS
`toLowerCase`/`toUpperCase` map `Char.toLower`/`Char.toUpper` over the
characters (identical to JS on ASCII, which is all the source's tables use).
`document.createElement` yields an element in the HTML namespace whose
`tagName` is upper-cased, `document.createElementNS` preserves the given
name except that HTML-namespace elements report an upper-cased `tagName`,
as in an HTML document.
-/

def SVG_NS : String := "http://www.w3.org/2000/svg"

def HTML_NS : String := "http://www.w3.org/1999/xhtml"

/-- The SVG tag set of the source (the comma-separated string literal,
already trimmed, lower-cased and split as the source's initializer does). -/
def SVG_TAGS : List String :=
  ["a_svg", "animate", "animatemotion", "animatetransform", "audio_svg", "canvas_svg",
   "circle", "clippath", "defs", "desc", "discard", "ellipse",
   "feblend", "fecolormatrix", "fecomponenttransfer", "fecomposite", "feconvolvematrix",
   "fediffuselighting", "fedisplacementmap", "fedistantlight", "fedropshadow", "feflood",
   "fefunca", "fefuncb", "fefuncg", "fefuncr", "fegaussianblur", "feimage", "femerge",
   "femergenode", "femorphology", "feoffset", "fepointlight", "fespecularlighting",
   "fespotlight", "fetile", "feturbulence", "filter", "foreignobject", "g",
   "iframe_svg", "image_svg", "line", "lineargradient", "marker", "mask", "metadata",
   "mpath", "path", "pattern", "polygon", "polyline", "radialgradient", "rect",
   "script_svg", "set", "stop", "style_svg", "svg", "switch", "symbol", "text",
   "textpath", "title", "tspan", "unknown", "use", "video_svg", "view"]

/-- Keys of the PROPERTY_NAMES record (each key maps to itself in the source). -/
def PROPERTY_NAMES : List String :=
  ["value", "checked", "selected", "indeterminate",
   "muted", "volume", "currentTime", "playbackRate",
   "innerHTML", "textContent", "innerText"]

/-- Member names every plain JS object literal inherits from
Object.prototype. PROPERTY_NAMES is a plain object literal, so the lookup
PROPERTY_NAMES[name] is truthy for these names too: it yields the inherited
member (a function, or the prototype object for proto), not undefined. -/
def OBJECT_PROTO_MEMBERS : List String :=
  ["constructor", "hasOwnProperty", "isPrototypeOf", "propertyIsEnumerable",
   "toLocaleString", "toString", "valueOf",
   "__proto__", "__defineGetter__", "__defineSetter__",
   "__lookupGetter__", "__lookupSetter__"]

/-- The property key the assignment element[PROPERTY_NAMES[name]] uses when
name is an inherited Object.prototype member: JS coerces the looked-up
member to a string and assigns an expando property under that key. The
exact text is environment-specific (native-function source text for the
function members); it is kept opaque here, keyed by the member name. -/
def protoMemberKey (name : String) : String :=
  "[string coercion of Object.prototype member] " ++ name

def BOOLEAN_ATTRS : List String :=
  ["disabled", "readonly", "required", "autofocus", "autoplay", "controls", "loop",
   "multiple", "open", "hidden", "reversed", "allowfullscreen", "default", "ismap",
   "novalidate", "formnovalidate", "defer", "async"]

/-- JS String.prototype.toLowerCase (character-wise; the source only ever
lower-cases ASCII tag and prop names, where this and JS agree). Defined by
structural recursion over the character list so that it evaluates. -/
def jsToLower (s : String) : String := String.mk (s.data.map Char.toLower)

/-- JS String.prototype.toUpperCase, and the tagName upper-casing an HTML
document applies to HTML-namespace elements. -/
def jsToUpper (s : String) : String := String.mk (s.data.map Char.toUpper)

/-- JS String.prototype.startsWith. -/
def jsStartsWith (s pre : String) : Bool := s.data.take pre.data.length == pre.data

/-- JS String.prototype.slice with a non-negative start index. -/
def jsSlice (s : String) (n : Nat) : String := String.mk (s.data.drop n)

/-- JS tag.split("_")[0]: the part of the string before the first
underscore (the whole string when there is none). -/
def splitHead (s : String) : String := String.mk (s.data.takeWhile (fun c => c != '_'))

def isSvgTag (tag : String) : Bool := SVG_TAGS.contains (jsToLower tag)

/-- A style-object entry value: a JS string or a bare number. -/
inductive StyleVal where
  | svStr (s : String)
  | svNum (n : Int)
deriving DecidableEq

/-- A JS prop value, as far as setProp distinguishes values: the primitive
cases, an opaque function (identified by a tag for listener bookkeeping)
and a style object. -/
inductive Value where
  | vNull
  | vUndef
  | vBool (b : Bool)
  | vNum (n : Int)
  | vStr (s : String)
  | vFun (f : Nat)
  | vStyle (entries : List (String × StyleVal))
deriving DecidableEq

mutual

inductive Element where
  | mk (nsURI : Option String) (tagName : String)
       (attrs : List (String × String))
       (listeners : List (String × Nat))
       (domProps : List (String × Value))
       (children : NodeList)

inductive DomNode where
  | elem (e : Element)
  | text (s : String)
  | other (k : Nat)

inductive NodeList where
  | nil
  | cons (n : DomNode) (rest : NodeList)

end

def Element.nsURI : Element → Option String
  | Element.mk ns _ _ _ _ _ => ns

def Element.tagName : Element → String
  | Element.mk _ t _ _ _ _ => t

def Element.attrs : Element → List (String × String)
  | Element.mk _ _ a _ _ _ => a

def Element.listeners : Element → List (String × Nat)
  | Element.mk _ _ _ l _ _ => l

def Element.domProps : Element → List (String × Value)
  | Element.mk _ _ _ _ p _ => p

def Element.children : Element → NodeList
  | Element.mk _ _ _ _ _ k => k

def NodeList.toList : NodeList → List DomNode
  | NodeList.nil => []
  | NodeList.cons n rest => n :: rest.toList

def NodeList.ofList : List DomNode → NodeList
  | [] => NodeList.nil
  | n :: rest => NodeList.cons n (NodeList.ofList rest)

def NodeList.append : NodeList → NodeList → NodeList
  | NodeList.nil, ys => ys
  | NodeList.cons x xs, ys => NodeList.cons x (xs.append ys)

/-- The view of an append/correction parent that fixNamespaceIfNeeded reads:
its namespaceURI and tagName. A DocumentFragment has neither property
(both read as undefined in JS), hence both fields are none for it. -/
structure ParentRef where
  namespaceURI : Option String
  tagName : Option String
deriving DecidableEq

def Element.asParent (e : Element) : ParentRef :=
  ParentRef.mk e.nsURI (some e.tagName)

def fragmentParent : ParentRef := ParentRef.mk none none

/-- document.createElementNS: HTML-namespace elements report an upper-cased
tagName in an HTML document; other namespaces preserve the name. -/
def createElementNS (ns : String) (tag : String) : Element :=
  Element.mk (some ns) (if ns = HTML_NS then jsToUpper tag else tag) [] [] [] NodeList.nil

/-- document.createElement: an HTML-namespace element with upper-cased tagName. -/
def createElement (tag : String) : Element :=
  Element.mk (some HTML_NS) (jsToUpper tag) [] [] [] NodeList.nil

/-- element.setAttribute on an ordered attribute list: update in place if the
name exists, otherwise append. -/
def setAttrList (attrs : List (String × String)) (n v : String) : List (String × String) :=
  if attrs.any (fun kv => kv.1 == n) then
    attrs.map (fun kv => if kv.1 == n then (kv.1, v) else kv)
  else attrs ++ [(n, v)]

def removeAttrList (attrs : List (String × String)) (n : String) : List (String × String) :=
  attrs.filter (fun kv => kv.1 != n)

def getAttrList (attrs : List (String × String)) (n : String) : Option String :=
  (attrs.find? (fun kv => kv.1 == n)).map (fun kv => kv.2)

def Element.setAttribute : Element → String → String → Element
  | Element.mk ns t a l p k, n, v => Element.mk ns t (setAttrList a n v) l p k

def Element.removeAttribute : Element → String → Element
  | Element.mk ns t a l p k, n => Element.mk ns t (removeAttrList a n) l p k

def Element.getAttribute (e : Element) (n : String) : Option String :=
  getAttrList e.attrs n

def Element.addEventListener : Element → String → Nat → Element
  | Element.mk ns t a l p k, ev, f => Element.mk ns t a (l ++ [(ev, f)]) p k

/-- Direct DOM property assignment (element[name] = value). -/
def setDomPropList (props : List (String × Value)) (n : String) (v : Value) : List (String × Value) :=
  if props.any (fun kv => kv.1 == n) then
    props.map (fun kv => if kv.1 == n then (kv.1, v) else kv)
  else props ++ [(n, v)]

def Element.setDomProp : Element → String → Value → Element
  | Element.mk ns t a l p k, n, v => Element.mk ns t a l (setDomPropList p n v) k

def Element.appendNodes : Element → List DomNode → Element
  | Element.mk ns t a l p k, more => Element.mk ns t a l p (k.append (NodeList.ofList more))

/-- element.textContent = s: replaces the children with a single text node,
or with nothing when s is empty. -/
def Element.setTextContent : Element → String → Element
  | Element.mk ns t a l p _, s =>
    Element.mk ns t a l p
      (if s = "" then NodeList.nil else NodeList.cons (DomNode.text s) NodeList.nil)

mutual

/-- element.textContent getter: concatenation of all descendant text nodes. -/
def Element.textContent : Element → String
  | Element.mk _ _ _ _ _ kids => textOfNodes kids

def textOfNodes : NodeList → String
  | NodeList.nil => ""
  | NodeList.cons (DomNode.elem e) rest => e.textContent ++ textOfNodes rest
  | NodeList.cons (DomNode.text s) rest => s ++ textOfNodes rest
  | NodeList.cons (DomNode.other _) rest => textOfNodes rest

end

/-- The expected-namespace computation of fixNamespaceIfNeeded, on the
parent's namespaceURI and tagName and the child's lower-cased tagName. -/
def expectedNamespace (parentNS : Option String) (parentTag : Option String)
    (childTagLower : String) : Option String :=
  if parentTag = some "foreignObject" then
    some (if isSvgTag childTagLower then SVG_NS else HTML_NS)
  else if parentNS = some SVG_NS then
    some SVG_NS
  else if parentNS = some HTML_NS then
    some (if isSvgTag childTagLower then SVG_NS else HTML_NS)
  else none

mutual

/-- fixNamespaceIfNeeded: returns the child unchanged when no namespace is
expected or it already matches; otherwise rebuilds the child in the expected
namespace (lower-cased tag when the target is HTML), copies the attributes
via setAttribute, and rebuilds the child nodes with the corrected element as
the new parent context. Listeners and DOM properties are not copied, exactly
as a createElementNS-plus-setAttribute clone loses them. -/
def fixNamespaceIfNeeded (parent : ParentRef) : Element → Element
  | Element.mk childNS childTag cattrs clist cprops ckids =>
    let childTagLower := jsToLower childTag
    match expectedNamespace parent.namespaceURI parent.tagName childTagLower with
    | none => Element.mk childNS childTag cattrs clist cprops ckids
    | some ens =>
      if childNS = some ens then Element.mk childNS childTag cattrs clist cprops ckids
      else
        let tagForCreation := if ens = HTML_NS then childTagLower else childTag
        let corrected := createElementNS ens tagForCreation
        let copied := cattrs.foldl (fun acc kv => setAttrList acc kv.1 kv.2) corrected.attrs
        Element.mk corrected.nsURI corrected.tagName copied [] []
          (fixChildNodes (ParentRef.mk corrected.nsURI (some corrected.tagName)) ckids)

def fixChildNodes (p : ParentRef) : NodeList → NodeList
  | NodeList.nil => NodeList.nil
  | NodeList.cons (DomNode.elem e) rest =>
      NodeList.cons (DomNode.elem (fixNamespaceIfNeeded p e)) (fixChildNodes p rest)
  | NodeList.cons n rest => NodeList.cons n (fixChildNodes p rest)

end

mutual

/-- A JSX children value: null, undefined, a boolean, a string, a number,
a DOM node, or a (possibly nested) array of children values. -/
inductive Child where
  | cnull
  | cundef
  | cbool (b : Bool)
  | cstr (s : String)
  | cnum (n : Int)
  | cnode (n : DomNode)
  | carr (xs : ChildList)

inductive ChildList where
  | nil
  | cons (c : Child) (cs : ChildList)

end

def ChildList.ofList : List Child → ChildList
  | [] => ChildList.nil
  | c :: cs => ChildList.cons c (ChildList.ofList cs)

def ChildList.toList : ChildList → List Child
  | ChildList.nil => []
  | ChildList.cons c cs => c :: cs.toList

/-- String(n) for the numbers we model. -/
def jsNumToString (n : Int) : String := toString n

mutual

/-- appendDomChild, as the list of nodes it appends to the parent (appending
is the only mutation it performs, and the appended nodes depend only on the
parent's namespaceURI/tagName view, so a pure reading is exact). -/
def appendDomChild (parent : ParentRef) : Child → List DomNode
  | Child.cnull => []
  | Child.cundef => []
  | Child.cbool _ => []
  | Child.carr xs => appendChildList parent xs
  | Child.cstr s => [DomNode.text s]
  | Child.cnum n => [DomNode.text (jsNumToString n)]
  | Child.cnode (DomNode.elem e) => [DomNode.elem (fixNamespaceIfNeeded parent e)]
  | Child.cnode n => [n]

def appendChildList (parent : ParentRef) : ChildList → List DomNode
  | ChildList.nil => []
  | ChildList.cons c cs => appendDomChild parent c ++ appendChildList parent cs

end

/-- The prop-setter of the source: reserved props, event listeners, style
objects, boolean attributes, DOM properties, then the generic attribute
path. The source guards the DOM-property branch with the truthy lookup
PROPERTY_NAMES[name]; that lookup splits into two cases here: an own key of
the record (which maps to itself, so the element property under that very
name is assigned) and an inherited Object.prototype member (where the
assignment element[PROPERTY_NAMES[name]] goes to the member's
string-coerced key). -/
def valueIsFn : Value → Bool
  | Value.vFun _ => true
  | _ => false

def valueIsNonNullObject : Value → Bool
  | Value.vStyle _ => true
  | _ => false

def valueIsNullish : Value → Bool
  | Value.vNull => true
  | Value.vUndef => true
  | _ => false

/-- value === false || value == null. -/
def valueIsFalseOrNullish : Value → Bool
  | Value.vBool false => true
  | Value.vNull => true
  | Value.vUndef => true
  | _ => false

/-- String(value) on the values we model ([object Object] for the style
object, an unspecified placeholder for functions). -/
def valueToString : Value → String
  | Value.vNull => "null"
  | Value.vUndef => "undefined"
  | Value.vBool b => if b then "true" else "false"
  | Value.vNum n => toString n
  | Value.vStr s => s
  | Value.vFun _ => "function"
  | Value.vStyle _ => "[object Object]"

def styleValToString : StyleVal → String
  | StyleVal.svNum n => toString n ++ "px"
  | StyleVal.svStr s => s

def hasUpperChar (s : String) : Bool := s.data.any (fun c => 65 ≤ c.toNat && c.toNat ≤ 90)

/-- JS Array.prototype.join with a separator. -/
def joinWithSep (sep : String) : List String → String
  | [] => ""
  | [s] => s
  | s :: rest => s ++ sep ++ joinWithSep sep rest

/-- The body of styleObjectToString's loop: the pushed parts and, alongside,
the keys for which the camelCase console warning fires. -/
def styleLoop : List (String × StyleVal) → List String × List String
  | [] => ([], [])
  | (k, v) :: rest =>
    let tail := styleLoop rest
    ((k ++ ": " ++ styleValToString v) :: tail.1,
     (if hasUpperChar k then [k] else []) ++ tail.2)

def styleObjectToString (style : List (String × StyleVal)) : String :=
  joinWithSep "; " (styleLoop style).1

def styleWarnings (style : List (String × StyleVal)) : List String :=
  (styleLoop style).2

def setProp (element : Element) (name : String) (value : Value) : Element :=
  if name = "key" ∨ name = "ref" then element
  else if jsStartsWith name "on" && valueIsFn value then
    match value with
    | Value.vFun f => element.addEventListener (jsSlice (jsToLower name) 2) f
    | _ => element
  else if name = "style" && valueIsNonNullObject value then
    match value with
    | Value.vStyle st => element.setAttribute "style" (styleObjectToString st)
    | _ => element
  else if BOOLEAN_ATTRS.contains name then
    if valueIsFalseOrNullish value then element.removeAttribute name
    else element.setAttribute name ""
  else if PROPERTY_NAMES.contains name then
    element.setDomProp name value
  else if OBJECT_PROTO_MEMBERS.contains name then
    element.setDomProp (protoMemberKey name) value
  else if !(valueIsNullish value) then
    element.setAttribute name (valueToString value)
  else element

/-- The general path of createDomElement for a string tag: resolve the
namespace, create the element (splitting off a synthetic suffix for SVG),
append every child, then apply every prop in order. The ref side effect
is external to the element state and not modelled. -/
def createDomElementGeneral (tag : String) (props : Option (List (String × Value)))
    (children : List Child) : Element :=
  let ns : Option String := if isSvgTag tag then some SVG_NS else none
  let element := match ns with
    | some n => createElementNS n (splitHead tag)
    | none => createElement tag
  let element := element.appendNodes (children.flatMap (appendDomChild element.asParent))
  match props with
  | none => element
  | some ps => ps.foldl (fun e kv => setProp e kv.1 kv.2) element

/-- createDomElement for a string tag: the two fast paths (no props with a
single string child; no props with no children), else the general path. -/
def createDomElement (tag : String) (props : Option (List (String × Value)))
    (children : List Child) : Element :=
  match props, children with
  | none, [Child.cstr s] => (createElement tag).setTextContent s
  | none, [] => createElement tag
  | _, _ => createDomElementGeneral tag props children

/-- JS truthiness of a children value (arrays and nodes are objects, hence
truthy; NaN does not arise for the integer numbers modelled). -/
def jsTruthy : Child → Bool
  | Child.cnull => false
  | Child.cundef => false
  | Child.cbool b => b
  | Child.cnum n => n != 0
  | Child.cstr s => s != ""
  | Child.cnode _ => true
  | Child.carr _ => true

/-- createDomFragment, as the final child-node list of the fragment. props
is either null (none) or an object whose children field is absent or holds
a children value; props?.children || children picks the field only when it
is truthy. -/
def createDomFragment (props : Option (Option Child)) (children : List Child) : List DomNode :=
  let actualChildren : Child :=
    match props with
    | some (some c) => if jsTruthy c then c else Child.carr (ChildList.ofList children)
    | _ => Child.carr (ChildList.ofList children)
  let childArray : ChildList :=
    match actualChildren with
    | Child.carr xs => xs
    | c => ChildList.cons c ChildList.nil
  appendChildList fragmentParent childArray

/-- The observable data the refinement claim compares: tag name, namespace,
attributes and text content. -/
def observe (e : Element) : Option String × String × List (String × String) × String :=
  (e.nsURI, e.tagName, e.attrs, e.textContent)

/-! ### Helper lemmas -/

theorem getAttrList_map_set (a : List (String × String)) (n v : String)
    (h : a.any (fun kv => kv.1 == n) = true) :
    getAttrList (a.map fun kv => if kv.1 == n then (kv.1, v) else kv) n = some v := by
  induction a with
  | nil => simp at h
  | cons kv rest ih =>
    simp only [List.any_cons, Bool.or_eq_true] at h
    by_cases hk : (kv.1 == n) = true
    · simp only [List.map_cons, if_pos hk, getAttrList]
      rw [List.find?_cons_of_pos]
      · rfl
      · exact hk
    · have hrest : rest.any (fun kv => kv.1 == n) = true := by
        rcases h with h | h
        · exact absurd h hk
        · exact h
      have := ih hrest
      simp only [List.map_cons, if_neg hk, getAttrList] at this ⊢
      rw [List.find?_cons_of_neg _ (by simpa using hk)]
      exact this

theorem getAttrList_append_new (a : List (String × String)) (n v : String)
    (h : a.any (fun kv => kv.1 == n) = false) :
    getAttrList (a ++ [(n, v)]) n = some v := by
  induction a with
  | nil => simp [getAttrList]
  | cons kv rest ih =>
    simp only [List.any_cons, Bool.or_eq_false_iff] at h
    simp only [List.cons_append, getAttrList]
    rw [List.find?_cons_of_neg _ (by simpa using h.1)]
    exact ih h.2

theorem getAttrList_set (a : List (String × String)) (n v : String) :
    getAttrList (setAttrList a n v) n = some v := by
  unfold setAttrList
  split
  case isTrue h => exact getAttrList_map_set a n v h
  case isFalse h => exact getAttrList_append_new a n v (Bool.eq_false_iff.mpr h)

theorem getAttrList_remove (a : List (String × String)) (n : String) :
    getAttrList (removeAttrList a n) n = none := by
  unfold removeAttrList getAttrList
  rw [List.find?_eq_none.mpr]
  · rfl
  · intro kv hkv
    have := (List.mem_filter.mp hkv).2
    simpa using this

theorem childList_toList_ofList (l : List Child) : (ChildList.ofList l).toList = l := by
  induction l with
  | nil => rfl
  | cons c cs ih => simp [ChildList.ofList, ChildList.toList, ih]

theorem appendChildList_eq_flatMap (p : ParentRef) :
    (xs : ChildList) → appendChildList p xs = xs.toList.flatMap (appendDomChild p)
  | ChildList.nil => rfl
  | ChildList.cons c cs => by
    simp only [appendChildList, ChildList.toList, List.flatMap_cons]
    rw [appendChildList_eq_flatMap p cs]

/-- Unfolded form of Char.toLower (definitional). -/
theorem charToLower_eq (c : Char) :
    c.toLower = if 65 ≤ c.toNat ∧ c.toNat ≤ 90 then Char.ofNat (c.toNat + 32) else c := rfl

/-- Unfolded form of Char.toUpper (definitional). -/
theorem charToUpper_eq (c : Char) :
    c.toUpper = if 97 ≤ c.toNat ∧ c.toNat ≤ 122 then Char.ofNat (c.toNat - 32) else c := rfl

theorem charToNat_ofNat_valid {n : Nat} (h : n.isValidChar) : (Char.ofNat n).toNat = n := by
  unfold Char.ofNat
  rw [dif_pos h]
  rfl

theorem charLower_upper_lower (c : Char) : c.toLower.toUpper.toLower = c.toLower := by
  by_cases h1 : 65 ≤ c.toNat ∧ c.toNat ≤ 90
  · have hv : (c.toNat + 32).isValidChar := Or.inl (by omega)
    have ht : (Char.ofNat (c.toNat + 32)).toNat = c.toNat + 32 := charToNat_ofNat_valid hv
    have e1 : c.toLower = Char.ofNat (c.toNat + 32) := by rw [charToLower_eq, if_pos h1]
    have e2 : c.toLower.toUpper = c := by
      rw [e1, charToUpper_eq, ht, if_pos (by omega)]
      have : c.toNat + 32 - 32 = c.toNat := by omega
      rw [this, Char.ofNat_toNat]
    rw [e2]
  · by_cases h2 : 97 ≤ c.toNat ∧ c.toNat ≤ 122
    · have e1 : c.toLower = c := by rw [charToLower_eq, if_neg h1]
      have hv : (c.toNat - 32).isValidChar := Or.inl (by omega)
      have ht : (Char.ofNat (c.toNat - 32)).toNat = c.toNat - 32 := charToNat_ofNat_valid hv
      have e2 : c.toUpper = Char.ofNat (c.toNat - 32) := by rw [charToUpper_eq, if_pos h2]
      rw [e1, e2, charToLower_eq, ht, if_pos (by omega)]
      have : c.toNat - 32 + 32 = c.toNat := by omega
      rw [this, Char.ofNat_toNat]
    · have e1 : c.toLower = c := by rw [charToLower_eq, if_neg h1]
      have e2 : c.toUpper = c := by rw [charToUpper_eq, if_neg h2]
      rw [e1, e2, e1]

theorem strLower_upper_lower (s : String) :
    jsToLower (jsToUpper (jsToLower s)) = jsToLower s := by
  simp only [jsToLower, jsToUpper, List.map_map]
  exact congrArg String.mk (List.map_congr_left (fun c _ => charLower_upper_lower c))

/-- Children values the appender ignores: null, undefined and booleans. -/
def childInvisible : Child → Bool
  | Child.cnull => true
  | Child.cundef => true
  | Child.cbool _ => true
  | _ => false

mutual

/-- A children value with its invisible entries removed, at every depth. -/
def scrubChild : Child → Child
  | Child.carr xs => Child.carr (scrubList xs)
  | c => c

def scrubList : ChildList → ChildList
  | ChildList.nil => ChildList.nil
  | ChildList.cons c cs =>
    if childInvisible c then scrubList cs
    else ChildList.cons (scrubChild c) (scrubList cs)

end

mutual

theorem appendDomChild_scrub (p : ParentRef) :
    (c : Child) → appendDomChild p c = appendDomChild p (scrubChild c)
  | Child.cnull => rfl
  | Child.cundef => rfl
  | Child.cbool _ => rfl
  | Child.cstr _ => rfl
  | Child.cnum _ => rfl
  | Child.cnode _ => rfl
  | Child.carr xs => by
    simp only [scrubChild, appendDomChild]
    exact appendChildList_scrub p xs

theorem appendChildList_scrub (p : ParentRef) :
    (cs : ChildList) → appendChildList p cs = appendChildList p (scrubList cs)
  | ChildList.nil => rfl
  | ChildList.cons c cs => by
    simp only [appendChildList, scrubList]
    split
    case isTrue h =>
      have hc : appendDomChild p c = [] := by
        cases c <;> simp_all [childInvisible, appendDomChild]
      rw [hc, List.nil_append]
      exact appendChildList_scrub p cs
    case isFalse h =>
      simp only [appendChildList]
      rw [← appendDomChild_scrub p c, ← appendChildList_scrub p cs]

end

mutual

/-- The depth-first left-to-right leaf enumeration of a children value. -/
def flattenChild : Child → List Child
  | Child.carr xs => flattenList xs
  | c => [c]

def flattenList : ChildList → List Child
  | ChildList.nil => []
  | ChildList.cons c cs => flattenChild c ++ flattenList cs

end

mutual

theorem appendDomChild_flatten (p : ParentRef) :
    (c : Child) → appendDomChild p c = (flattenChild c).flatMap (appendDomChild p)
  | Child.cnull => by simp [flattenChild]
  | Child.cundef => by simp [flattenChild]
  | Child.cbool _ => by simp [flattenChild]
  | Child.cstr _ => by simp [flattenChild]
  | Child.cnum _ => by simp [flattenChild]
  | Child.cnode _ => by simp [flattenChild]
  | Child.carr xs => by
    simp only [flattenChild, appendDomChild]
    exact appendChildList_flatten p xs

theorem appendChildList_flatten (p : ParentRef) :
    (cs : ChildList) → appendChildList p cs = (flattenList cs).flatMap (appendDomChild p)
  | ChildList.nil => rfl
  | ChildList.cons c cs => by
    simp only [appendChildList, flattenList, List.flatMap_append]
    rw [appendDomChild_flatten p c, appendChildList_flatten p cs]

end

/-- The first element-node child, used to walk the concrete trees below. -/
def firstElemOfNodes : NodeList → Option Element
  | NodeList.nil => none
  | NodeList.cons (DomNode.elem e) _ => some e
  | NodeList.cons _ rest => firstElemOfNodes rest

def firstElemChild (e : Element) : Option Element := firstElemOfNodes e.children

/-- The tree built by the nested pragma calls for
svg > foreignObject > div > svg > circle (each with null props). -/
def c2tree : Element :=
  createDomElement "svg" none [Child.cnode (DomNode.elem
    (createDomElement "foreignObject" none [Child.cnode (DomNode.elem
      (createDomElement "div" none [Child.cnode (DomNode.elem
        (createDomElement "svg" none [Child.cnode (DomNode.elem
          (createDomElement "circle" none []))]))]))]))]

/-- The child of a parent is namespace-correct when the corrector expects
nothing for it or its namespace already matches the expectation. -/
def childNamespaceCorrect (p : ParentRef) (c : Element) : Prop :=
  ∀ ens, expectedNamespace p.namespaceURI p.tagName (jsToLower c.tagName) = some ens →
    c.nsURI = some ens

/-- The children source the fragment factory selects: a truthy children
field of a non-null props object (normalized to a list), else the variadic
children arguments. -/
def fragmentChildrenSource (props : Option (Option Child)) (children : List Child) : List Child :=
  match props with
  | some (some c) =>
    if jsTruthy c then
      match c with
      | Child.carr xs => xs.toList
      | c => [c]
    else children
  | _ => children

/-! ### Element-level attribute lemmas -/

theorem Element.getAttribute_setAttribute (e : Element) (n v : String) :
    (e.setAttribute n v).getAttribute n = some v := by
  cases e with
  | mk ns t a l p k =>
    simp only [Element.setAttribute, Element.getAttribute, Element.attrs]
    exact getAttrList_set a n v

theorem Element.getAttribute_removeAttribute (e : Element) (n : String) :
    (e.removeAttribute n).getAttribute n = none := by
  cases e with
  | mk ns t a l p k =>
    simp only [Element.removeAttribute, Element.getAttribute, Element.attrs]
    exact getAttrList_remove a n

/-! ### Claim theorems -/

/-- Claim C3: the child appender is a no-op on null, undefined and boolean
inputs, and any children value appends exactly the same nodes as that value
with all null/undefined/boolean entries removed, at every nesting depth. -/
theorem c3_invisible_children :
    (∀ p : ParentRef, appendDomChild p Child.cnull = [] ∧
      appendDomChild p Child.cundef = [] ∧
      ∀ b : Bool, appendDomChild p (Child.cbool b) = []) ∧
    (∀ (p : ParentRef) (c : Child), appendDomChild p c = appendDomChild p (scrubChild c)) ∧
    (∀ (p : ParentRef) (cs : ChildList), appendChildList p cs = appendChildList p (scrubList cs)) :=
  ⟨fun _ => ⟨rfl, rfl, fun _ => rfl⟩,
   fun p c => appendDomChild_scrub p c,
   fun p cs => appendChildList_scrub p cs⟩

/-- Claim C6: the nodes appended for a (possibly nested) children value are
exactly the concatenation, in depth-first left-to-right order, of the nodes
appended for each leaf of the value. -/
theorem c6_order_preservation :
    (∀ (p : ParentRef) (c : Child),
      appendDomChild p c = (flattenChild c).flatMap (appendDomChild p)) ∧
    (∀ (p : ParentRef) (cs : ChildList),
      appendChildList p cs = (flattenList cs).flatMap (appendDomChild p)) :=
  ⟨fun p c => appendDomChild_flatten p c, fun p cs => appendChildList_flatten p cs⟩

theorem styleLoop_parts (st : List (String × StyleVal)) :
    (styleLoop st).1 = st.map (fun kv => kv.1 ++ ": " ++ styleValToString kv.2) := by
  induction st with
  | nil => rfl
  | cons kv rest ih => simp [styleLoop, ih]

theorem styleLoop_warns (st : List (String × StyleVal)) :
    (styleLoop st).2 = (st.map Prod.fst).filter hasUpperChar := by
  induction st with
  | nil => rfl
  | cons kv rest ih =>
    by_cases h : hasUpperChar kv.1 <;> simp [styleLoop, ih, h, List.filter_cons]

/-- Claim C9: the style serialization is the entries in insertion order,
each rendered "key: value" with bare numbers suffixed px and strings
unchanged, joined by "; "; keys with an upper-case letter are warned about
but still applied as given; setProp applies the result as the style
attribute; and the spec's concrete examples hold. -/
theorem c9_style_object :
    (∀ st : List (String × StyleVal),
      styleObjectToString st =
        joinWithSep "; " (st.map (fun kv => kv.1 ++ ": " ++ styleValToString kv.2)) ∧
      styleWarnings st = (st.map Prod.fst).filter hasUpperChar) ∧
    (∀ (e : Element) (st : List (String × StyleVal)),
      setProp e "style" (Value.vStyle st) = e.setAttribute "style" (styleObjectToString st)) ∧
    styleObjectToString [("color", StyleVal.svStr "red"), ("font-size", StyleVal.svStr "14px")] =
      "color: red; font-size: 14px" ∧
    styleObjectToString [("width", StyleVal.svNum 100)] = "width: 100px" ∧
    styleValToString (StyleVal.svStr "50%") = "50%" :=
  ⟨fun st => ⟨by rw [styleObjectToString, styleLoop_parts], styleLoop_warns st⟩,
   fun _ _ => rfl, by decide, by decide, rfl⟩

theorem fixNamespace_no_context (p : ParentRef) (e : Element)
    (h1 : p.tagName ≠ some "foreignObject")
    (h2 : p.namespaceURI ≠ some SVG_NS) (h3 : p.namespaceURI ≠ some HTML_NS) :
    fixNamespaceIfNeeded p e = e := by
  cases e with
  | mk ns t a l dp k =>
    have hE : expectedNamespace p.namespaceURI p.tagName (jsToLower t) = none := by
      unfold expectedNamespace
      rw [if_neg h1, if_neg h2, if_neg h3]
    simp [fixNamespaceIfNeeded, hE]

/-- Claim C10: a parent with no recognized namespace context (in particular
a DocumentFragment, whose namespaceURI and tagName are both undefined)
determines no expected namespace; element children are appended through the
fragment factory exactly as given, never namespace-corrected. -/
theorem c10_fragment_never_heals :
    (∀ (p : ParentRef) (e : Element), p.tagName ≠ some "foreignObject" →
      p.namespaceURI ≠ some SVG_NS → p.namespaceURI ≠ some HTML_NS →
      fixNamespaceIfNeeded p e = e) ∧
    (∀ e : Element,
      appendDomChild fragmentParent (Child.cnode (DomNode.elem e)) = [DomNode.elem e]) ∧
    (∀ e : Element,
      createDomFragment none [Child.cnode (DomNode.elem e)] = [DomNode.elem e]) := by
  have hfix : ∀ e : Element, fixNamespaceIfNeeded fragmentParent e = e := fun e =>
    fixNamespace_no_context fragmentParent e (by decide) (by decide) (by decide)
  refine ⟨fixNamespace_no_context, fun e => ?_, fun e => ?_⟩
  · simp [appendDomChild, hfix]
  · simp [createDomFragment, ChildList.ofList, appendChildList, appendDomChild, hfix]

theorem c10_fragment_never_heals_witness :
    fixNamespaceIfNeeded (ParentRef.mk (some "urn:other") (some "widget"))
      (Element.mk none "box" [] [] [] NodeList.nil) =
      Element.mk none "box" [] [] [] NodeList.nil :=
  c10_fragment_never_heals.1 (ParentRef.mk (some "urn:other") (some "widget"))
    (Element.mk none "box" [] [] [] NodeList.nil) (by decide) (by decide) (by decide)

/-- Claim C8 as stated is false: the name toString lies outside the
reserved, event-listener, style-object, boolean-attribute and DOM-property
classifications of the spec, yet setProp with a nullish value does mutate
the element: the truthy lookup PROPERTY_NAMES[name] finds the inherited
Object.prototype member, so the code assigns an element property instead of
falling through to the nullish no-op. -/
theorem c8_counterexample :
    PROPERTY_NAMES.contains "toString" = false ∧
    BOOLEAN_ATTRS.contains "toString" = false ∧
    (setProp (createElement "div") "toString" Value.vNull).domProps =
      [(protoMemberKey "toString", Value.vNull)] ∧
    setProp (createElement "div") "toString" Value.vNull ≠ createElement "div" := by
  refine ⟨by decide, by decide, by decide, fun h => ?_⟩
  have h2 := congrArg Element.domProps h
  rw [show (setProp (createElement "div") "toString" Value.vNull).domProps =
    [(protoMemberKey "toString", Value.vNull)] by decide] at h2
  simp [createElement, Element.domProps] at h2

/-- Claim C8, amended: for a prop name outside the reserved,
boolean-attribute and DOM-property sets (the event and style
classifications cannot fire on a nullish value) that is also not a member
name inherited from Object.prototype (for those the truthy
PROPERTY_NAMES[name] lookup fires and an element property is assigned),
setProp with a nullish value leaves the element entirely unchanged; the
embedding of setProp is a total function, so no input throws. -/
theorem c8_nullish_generic_noop :
    ∀ (e : Element) (name : String) (v : Value),
      name ≠ "key" → name ≠ "ref" →
      BOOLEAN_ATTRS.contains name = false →
      PROPERTY_NAMES.contains name = false →
      OBJECT_PROTO_MEMBERS.contains name = false →
      valueIsNullish v = true →
      setProp e name v = e := by
  intro e name v hk hr hb hp ho hv
  have hb2 : ¬ name ∈ BOOLEAN_ATTRS := by simpa using hb
  have hp2 : ¬ name ∈ PROPERTY_NAMES := by simpa using hp
  have ho2 : ¬ name ∈ OBJECT_PROTO_MEMBERS := by simpa using ho
  cases v with
  | vNull =>
    simp [setProp, hk, hr, hb2, hp2, ho2, valueIsFn, valueIsNonNullObject, valueIsNullish,
      valueIsFalseOrNullish]
  | vUndef =>
    simp [setProp, hk, hr, hb2, hp2, ho2, valueIsFn, valueIsNonNullObject, valueIsNullish,
      valueIsFalseOrNullish]
  | vBool b => simp [valueIsNullish] at hv
  | vNum n => simp [valueIsNullish] at hv
  | vStr s => simp [valueIsNullish] at hv
  | vFun f => simp [valueIsNullish] at hv
  | vStyle st => simp [valueIsNullish] at hv

theorem c8_nullish_generic_noop_witness :
    setProp (createElement "div") "data-x" Value.vNull = createElement "div" :=
  c8_nullish_generic_noop (createElement "div") "data-x" Value.vNull
    (by decide) (by decide) (by decide) (by decide) (by decide) rfl

/-- Claim C7: for every prop name in the boolean-attribute set, setProp with
false or a nullish value leaves the attribute absent and setProp with any
other value leaves it present with the empty string, regardless of the
element's prior attribute state. -/
theorem c7_boolean_attribute :
    ∀ (e : Element) (name : String) (v : Value),
      BOOLEAN_ATTRS.contains name = true →
      (valueIsFalseOrNullish v = true → (setProp e name v).getAttribute name = none) ∧
      (valueIsFalseOrNullish v = false → (setProp e name v).getAttribute name = some "") := by
  intro e name v hb
  simp only [BOOLEAN_ATTRS] at hb
  rw [List.contains_eq_any_beq] at hb
  simp only [List.any_cons, List.any_nil, Bool.or_eq_true, beq_iff_eq, Bool.or_false] at hb
  have hsp : setProp e name v =
      if valueIsFalseOrNullish v then e.removeAttribute name else e.setAttribute name "" := by
    rcases hb with rfl | rfl | rfl | rfl | rfl | rfl | rfl | rfl | rfl | rfl | rfl | rfl |
      rfl | rfl | rfl | rfl | rfl | rfl <;> (cases v <;> rfl)
  refine ⟨fun hv => ?_, fun hv => ?_⟩
  · rw [hsp, if_pos hv]
    exact Element.getAttribute_removeAttribute e name
  · rw [hsp, if_neg (by simp [hv])]
    exact Element.getAttribute_setAttribute e name ""

theorem c7_boolean_attribute_witness :
    (setProp (createElement "input") "disabled" (Value.vBool false)).getAttribute "disabled" =
      none ∧
    (setProp (createElement "input") "disabled" (Value.vBool true)).getAttribute "disabled" =
      some "" :=
  ⟨(c7_boolean_attribute (createElement "input") "disabled" (Value.vBool false) (by decide)).1 rfl,
   (c7_boolean_attribute (createElement "input") "disabled" (Value.vBool true) (by decide)).2 rfl⟩

/-- Claim C4 as stated is false: a children field that is present but falsy
(here the boolean false) is not used as the children source; the variadic
arguments are used instead, so the appended output is the text node for the
variadic child rather than the empty output the false child would give. -/
theorem c4_counterexample :
    createDomFragment (some (some (Child.cbool false))) [Child.cstr "x"] = [DomNode.text "x"] ∧
    appendDomChild fragmentParent (Child.cbool false) = [] ∧
    ([DomNode.text "x"] : List DomNode) ≠ [] :=
  ⟨rfl, rfl, by simp⟩

/-- Claim C4, amended: the children field of a non-null props object is the
children source only when it is truthy (falsy fields, such as false, null,
undefined, 0 or "", fall back to the variadic arguments); a single
non-array source is wrapped as a one-element sequence, and each resulting
child is appended to the fresh fragment via the child appender. -/
theorem c4_children_source :
    ∀ (props : Option (Option Child)) (children : List Child),
      createDomFragment props children =
        (fragmentChildrenSource props children).flatMap (appendDomChild fragmentParent) := by
  intro props children
  have hvar : appendChildList fragmentParent (ChildList.ofList children) =
      children.flatMap (appendDomChild fragmentParent) := by
    rw [appendChildList_eq_flatMap, childList_toList_ofList]
  match props with
  | none => simpa [createDomFragment, fragmentChildrenSource] using hvar
  | some none => simpa [createDomFragment, fragmentChildrenSource] using hvar
  | some (some c) =>
    by_cases ht : jsTruthy c = true
    · cases c with
      | carr xs =>
        simp only [createDomFragment, fragmentChildrenSource, ht, if_pos]
        exact appendChildList_eq_flatMap fragmentParent xs
      | cnull => simp [jsTruthy] at ht
      | cundef => simp [jsTruthy] at ht
      | cbool b =>
        simp [createDomFragment, fragmentChildrenSource, ht, appendChildList, appendDomChild]
      | cstr s =>
        simp [createDomFragment, fragmentChildrenSource, ht, appendChildList, appendDomChild]
      | cnum n =>
        simp [createDomFragment, fragmentChildrenSource, ht, appendChildList, appendDomChild]
      | cnode n =>
        cases n with
        | elem e =>
          simp [createDomFragment, fragmentChildrenSource, ht, appendChildList, appendDomChild]
        | text s =>
          simp [createDomFragment, fragmentChildrenSource, ht, appendChildList, appendDomChild]
        | other k =>
          simp [createDomFragment, fragmentChildrenSource, ht, appendChildList, appendDomChild]
    · have ht2 : jsTruthy c = false := Bool.eq_false_iff.mpr ht
      simpa [createDomFragment, fragmentChildrenSource, ht2] using hvar

theorem createDomElementGeneral_nonsvg (tag : String) (children : List Child)
    (h : isSvgTag tag = false) :
    createDomElementGeneral tag none children =
      (createElement tag).appendNodes
        (children.flatMap (appendDomChild (createElement tag).asParent)) := by
  unfold createDomElementGeneral
  simp [h]

/-- Claim C1 as stated is false: for the SVG tag circle with null props and
zero children, the fast path creates a plain (HTML-namespace) element while
the general path creates an SVG-namespace element, so the observations
(tag, namespace, attributes, text content) differ. -/
theorem c1_counterexample :
    isSvgTag "circle" = true ∧
    observe (createDomElement "circle" none []) ≠
      observe (createDomElementGeneral "circle" none []) := by
  constructor
  · decide
  · decide

/-- Claim C1, amended: for every tag not in the SVG tag set, createDomElement
with null props and either zero children or exactly one string child is
observationally identical (tag, namespace, attributes, text content) to the
general path on the same arguments; for SVG tags the fast paths skip the
namespaced creation and produce an HTML-path element instead. -/
theorem c1_fast_paths_nonsvg :
    ∀ (tag s : String), isSvgTag tag = false →
      observe (createDomElement tag none [Child.cstr s]) =
        observe (createDomElementGeneral tag none [Child.cstr s]) ∧
      observe (createDomElement tag none []) =
        observe (createDomElementGeneral tag none []) := by
  intro tag s h
  constructor
  · rw [createDomElementGeneral_nonsvg tag _ h]
    show observe ((createElement tag).setTextContent s) = _
    by_cases hs : s = ""
    · subst hs
      simp [observe, createElement, Element.setTextContent, Element.appendNodes,
        NodeList.append, NodeList.ofList, Element.nsURI, Element.tagName, Element.attrs,
        Element.textContent, textOfNodes, appendDomChild]
    · simp [observe, createElement, Element.setTextContent, Element.appendNodes,
        NodeList.append, NodeList.ofList, Element.nsURI, Element.tagName, Element.attrs,
        Element.textContent, textOfNodes, appendDomChild, hs]
  · rw [createDomElementGeneral_nonsvg tag _ h]
    show observe (createElement tag) = _
    simp [observe, createElement, Element.appendNodes, NodeList.append, NodeList.ofList,
      Element.nsURI, Element.tagName, Element.attrs, Element.textContent, textOfNodes]

theorem c1_fast_paths_nonsvg_witness :
    observe (createDomElement "div" none [Child.cstr "hi"]) =
      observe (createDomElementGeneral "div" none [Child.cstr "hi"]) ∧
    observe (createDomElement "div" none []) =
      observe (createDomElementGeneral "div" none []) :=
  c1_fast_paths_nonsvg "div" "hi" (by decide)

theorem fixNamespace_nsURI_of_expected (p : ParentRef) (e : Element) (ens : String)
    (h : expectedNamespace p.namespaceURI p.tagName (jsToLower e.tagName) = some ens) :
    (fixNamespaceIfNeeded p e).nsURI = some ens := by
  cases e with
  | mk ns t a l dp k =>
    simp only [Element.tagName] at h
    simp only [fixNamespaceIfNeeded, h]
    split
    case isTrue hc => simpa [Element.nsURI] using hc
    case isFalse hc => simp [Element.nsURI, createElementNS]

/-- Claim C2: the corrector's expected namespace is SVG for a child of a
foreignObject-tagged parent whose case-folded tag is in the SVG set and HTML
otherwise, SVG unconditionally under an SVG-namespace parent, and under an
HTML-namespace parent SVG exactly when the child's case-folded tag is in the
SVG set; and the svg > foreignObject > div > svg > circle tree ends with the
outer svg, foreignObject, inner svg and circle in the SVG namespace and the
div in the HTML namespace. -/
theorem c2_expected_namespace :
    (∀ (p : ParentRef) (c : Element), p.tagName = some "foreignObject" →
      (fixNamespaceIfNeeded p c).nsURI =
        some (if isSvgTag (jsToLower c.tagName) then SVG_NS else HTML_NS)) ∧
    (∀ (p : ParentRef) (c : Element), p.tagName ≠ some "foreignObject" →
      p.namespaceURI = some SVG_NS →
      (fixNamespaceIfNeeded p c).nsURI = some SVG_NS) ∧
    (∀ (p : ParentRef) (c : Element), p.tagName ≠ some "foreignObject" →
      p.namespaceURI = some HTML_NS →
      (fixNamespaceIfNeeded p c).nsURI =
        some (if isSvgTag (jsToLower c.tagName) then SVG_NS else HTML_NS)) ∧
    (c2tree.nsURI = some SVG_NS ∧ c2tree.tagName = "svg") ∧
    ((firstElemChild c2tree).map (fun e => (e.nsURI, e.tagName)) =
      some (some SVG_NS, "foreignObject")) ∧
    (((firstElemChild c2tree).bind firstElemChild).map (fun e => (e.nsURI, e.tagName)) =
      some (some HTML_NS, "DIV")) ∧
    ((((firstElemChild c2tree).bind firstElemChild).bind firstElemChild).map
        (fun e => (e.nsURI, e.tagName)) = some (some SVG_NS, "svg")) ∧
    (((((firstElemChild c2tree).bind firstElemChild).bind firstElemChild).bind
        firstElemChild).map (fun e => e.nsURI) = some (some SVG_NS)) := by
  refine ⟨?_, ?_, ?_, by decide, by decide, by decide, by decide, by decide⟩
  · intro p c hfo
    apply fixNamespace_nsURI_of_expected
    unfold expectedNamespace
    rw [if_pos hfo]
  · intro p c hfo hsvg
    apply fixNamespace_nsURI_of_expected
    unfold expectedNamespace
    rw [if_neg hfo, if_pos hsvg]
  · intro p c hfo hns
    have hnsvg : p.namespaceURI ≠ some SVG_NS := by
      rw [hns]
      decide
    apply fixNamespace_nsURI_of_expected
    unfold expectedNamespace
    rw [if_neg hfo, if_neg hnsvg, if_pos hns]

theorem c2_expected_namespace_witness :
    (fixNamespaceIfNeeded (ParentRef.mk (some SVG_NS) (some "svg"))
      (createElementNS SVG_NS "circle")).nsURI = some SVG_NS :=
  c2_expected_namespace.2.1 (ParentRef.mk (some SVG_NS) (some "svg"))
    (createElementNS SVG_NS "circle") (by decide) rfl

theorem fixNamespace_tagLower (p : ParentRef) (e : Element) :
    jsToLower (fixNamespaceIfNeeded p e).tagName = jsToLower e.tagName := by
  cases e with
  | mk ns t a l dp k =>
    simp only [Element.tagName]
    rcases hE : expectedNamespace p.namespaceURI p.tagName (jsToLower t) with _ | ens
    · simp [fixNamespaceIfNeeded, hE, Element.tagName]
    · simp only [fixNamespaceIfNeeded, hE]
      by_cases hc : ns = some ens
      · rw [if_pos hc]
      · rw [if_neg hc]
        simp only [Element.tagName, createElementNS]
        by_cases hH : ens = HTML_NS
        · simp [hH, strLower_upper_lower]
        · simp [hH]

theorem fixNamespace_result_correct (p : ParentRef) (c : Element) :
    childNamespaceCorrect p (fixNamespaceIfNeeded p c) := by
  intro ens2 h2
  rw [fixNamespace_tagLower p c] at h2
  rcases hE : expectedNamespace p.namespaceURI p.tagName (jsToLower c.tagName) with _ | ens
  · rw [hE] at h2
    exact Option.noConfusion h2
  · rw [hE] at h2
    injection h2 with h3
    subst h3
    exact fixNamespace_nsURI_of_expected p c ens hE

theorem fixNamespace_fixed_point (p : ParentRef) (c : Element)
    (h : childNamespaceCorrect p c) : fixNamespaceIfNeeded p c = c := by
  cases c with
  | mk ns t a l dp k =>
    rcases hE : expectedNamespace p.namespaceURI p.tagName (jsToLower t) with _ | ens
    · simp [fixNamespaceIfNeeded, hE]
    · have hns : ns = some ens := by
        simpa [Element.nsURI] using h ens (by simpa [Element.tagName] using hE)
      simp [fixNamespaceIfNeeded, hE, hns]

/-- Claim C5: the namespace corrector is idempotent: it returns an
already-correct child unchanged, and applying it twice equals applying it
once. -/
theorem c5_corrector_idempotent :
    (∀ (p : ParentRef) (c : Element), childNamespaceCorrect p c →
      fixNamespaceIfNeeded p c = c) ∧
    (∀ (p : ParentRef) (c : Element),
      fixNamespaceIfNeeded p (fixNamespaceIfNeeded p c) = fixNamespaceIfNeeded p c) :=
  ⟨fixNamespace_fixed_point,
   fun p c => fixNamespace_fixed_point p (fixNamespaceIfNeeded p c)
     (fixNamespace_result_correct p c)⟩

theorem c5_corrector_idempotent_witness :
    fixNamespaceIfNeeded (ParentRef.mk (some SVG_NS) (some "g"))
      (createElementNS SVG_NS "rect") = createElementNS SVG_NS "rect" :=
  c5_corrector_idempotent.1 (ParentRef.mk (some SVG_NS) (some "g"))
    (createElementNS SVG_NS "rect")
    (fun ens h => by
      have hval : expectedNamespace (ParentRef.mk (some SVG_NS) (some "g")).namespaceURI
          (ParentRef.mk (some SVG_NS) (some "g")).tagName
          (jsToLower (createElementNS SVG_NS "rect").tagName) = some SVG_NS := by decide
      rw [hval] at h
      injection h with h2
      subst h2
      decide)
